import Mathlib

/-!
Verification development for the GeoRefImg repository (`georefimg.py`,
`georefimg_fixed.py`).

The affine-fit and coordinate-transform engine, the control-point store,
the polygon/ring data model and the export encodings are embedded
shallowly over `ℚ`: the original code computes with Python/NumPy floats;
here every float is modelled as a rational so that the algebraic
properties (exact fit, round trips, residuals) can be settled exactly.
The NaN sentinel pair `(float('nan'), float('nan'))` that the code uses
as a failure value is modelled as `none` of an `Option` type, and
`np.linalg.solve` / `np.linalg.lstsq` are modelled by the exact linear
algebra they perform (Cramer solutions of the corresponding square or
normal-equation systems).
-/

set_option maxHeartbeats 1600000

namespace GeoRefImg

/-- Embeds `ControlPoint` (georefimg.py, lines 65-74): pixel coordinates
`col`,`row` always present, world coordinates `x`,`y` optional. -/
structure ControlPoint where
  col : ℚ
  row : ℚ
  x : Option ℚ := none
  y : Option ℚ := none
deriving DecidableEq, Repr

/-- `ControlPoint.is_complete` (georefimg.py line 73):
`self.x is not None and self.y is not None`. -/
def ControlPoint.is_complete (cp : ControlPoint) : Bool :=
  cp.x.isSome && cp.y.isSome

/-- The six world-file-style affine parameters, stored by
`compute_transform` as `np.array([A, B, C, D, E, F])`
(georefimg.py line 823).  `x = C + A*col + B*row`, `y = F + D*col + E*row`. -/
structure AffineT where
  A : ℚ
  B : ℚ
  C : ℚ
  D : ℚ
  E : ℚ
  F : ℚ
deriving DecidableEq, Repr

/-- A digitized world point.  `some (x, y)` is an ordinary value;
`none` models the NaN sentinel pair that `pixel_to_world` /
`world_to_pixel` return when the transform is absent or singular. -/
def WPoint : Type := Option (ℚ × ℚ)

instance : DecidableEq WPoint := by unfold WPoint; infer_instance

/-- `DigitizedPolygon.pixel_points` / `world_points` are dynamically
typed in the Python source: a plain list of pairs for a single-ring
polygon, a list of lists for a multi-part group (georefimg.py lines
652-680).  The exporters test `isinstance(poly.world_points[0], list)`
to tell the two shapes apart; the sum type makes that test total. -/
inductive PixPoints where
  | single (pts : List (ℚ × ℚ))
  | group (parts : List (List (ℚ × ℚ)))
deriving DecidableEq, Repr

/-- World-side counterpart of `PixPoints` (entries may be NaN pairs). -/
inductive WPts where
  | single (pts : List WPoint)
  | group (parts : List (List WPoint))
deriving DecidableEq

/-- Embeds `DigitizedPolygon` (georefimg.py lines 77-82). -/
structure DigitizedPolygon where
  name : String
  pixel_points : PixPoints
  world_points : WPts
  id : Nat
deriving DecidableEq

/-- The mutable fields of `GeoRefApp` that the core operations read and
write (georefimg.py `__init__`, lines 86-111); the purely presentational
fields (figure, buttons, view limits) are outside the model. -/
structure AppState where
  image_path : Option String := none
  control_points : List ControlPoint := []
  transform : Option AffineT := none
  stage : Nat := 1
  drawing : Bool := false
  pan_mode : Bool := false
  rect_start : Option (ℚ × ℚ) := none
  current_poly_pixels : List (ℚ × ℚ) := []
  current_group_pixels : List (List (ℚ × ℚ)) := []
  current_group_name : Option String := none
  polygons : List DigitizedPolygon := []
  next_poly_id : Nat := 1
deriving DecidableEq

/-- The state produced by `GeoRefApp.__init__`. -/
def initState : AppState := {}

/-! ## AffineSolver: forward and inverse application -/

/-- Forward affine evaluation on a present transform
(`pixel_to_world` body, georefimg.py lines 963-966). -/
def pixel_to_world (t : AffineT) (col row : ℚ) : ℚ × ℚ :=
  (t.C + t.A * col + t.B * row, t.F + t.D * col + t.E * row)

/-- `GeoRefApp.pixel_to_world` (georefimg.py lines 960-966): returns the
NaN pair when no transform is stored, else evaluates forward. -/
def pixel_to_world_app (tr : Option AffineT) (col row : ℚ) : WPoint :=
  match tr with
  | none => none
  | some t => some (pixel_to_world t col row)

/-- The 2x2 solve of `world_to_pixel` (georefimg.py lines 968-980):
`np.linalg.solve([[A,B],[D,E]], [x-C, y-F])` computed exactly by
Cramer's rule; `np.linalg.LinAlgError` (singular matrix) is the `none`
branch, modelling the returned NaN pair. -/
def world_to_pixel (t : AffineT) (x y : ℚ) : Option (ℚ × ℚ) :=
  let det := t.A * t.E - t.B * t.D
  if det = 0 then none
  else some (((x - t.C) * t.E - t.B * (y - t.F)) / det,
             (t.A * (y - t.F) - (x - t.C) * t.D) / det)

/-- `GeoRefApp.world_to_pixel` (georefimg.py lines 968-980): the NaN
pair is returned both when the transform is absent and when the 2x2
linear part is singular; both cases are `none` here, exactly as both
are `(float('nan'), float('nan'))` in the source. -/
def world_to_pixel_app (tr : Option AffineT) (x y : ℚ) : WPoint :=
  match tr with
  | none => none
  | some t => world_to_pixel t x y

/-! ## AffineSolver: least-squares fit -/

/-- Sum of `f` over a list, used to build the normal equations. -/
def sumBy (l : List α) (f : α → ℚ) : ℚ := (l.map f).sum

/-- Determinant of a 3x3 matrix given row-wise. -/
def det3 (a b c d e f g h i : ℚ) : ℚ :=
  a * (e * i - f * h) - b * (d * i - f * g) + c * (d * h - e * g)

/-- Cramer solution of the 3x3 system `M p = b` (rows of `M` given
row-wise, then `b`).  When `det M = 0` the rational division by zero
yields the junk value `0`; no claim depends on that branch
(`np.linalg.lstsq` falls back to a minimum-norm solution there). -/
def solve3 (m00 m01 m02 m10 m11 m12 m20 m21 m22 b0 b1 b2 : ℚ) : ℚ × ℚ × ℚ :=
  let Δ := det3 m00 m01 m02 m10 m11 m12 m20 m21 m22
  (det3 b0 m01 m02 b1 m11 m12 b2 m21 m22 / Δ,
   det3 m00 b0 m02 m10 b1 m12 m20 b2 m22 / Δ,
   det3 m00 m01 b0 m10 m11 b1 m20 m21 b2 / Δ)

/-- `np.linalg.lstsq(G, b)` for the design matrix `G` with rows
`[1, col_i, row_i]` (georefimg.py lines 817-820), modelled exactly by
the normal equations `GᵀG p = Gᵀ b` solved with `solve3`.  For data of
full column rank this is the unique least-squares solution, which is
what `lstsq` computes.  Input rows are `(col, row, b)`; the result is
`(p0, p1, p2)` with fitted value `p0 + p1*col + p2*row`. -/
def lstsq3 (data : List (ℚ × ℚ × ℚ)) : ℚ × ℚ × ℚ :=
  let n : ℚ := data.length
  let sc := sumBy data (fun d => d.1)
  let sr := sumBy data (fun d => d.2.1)
  let sb := sumBy data (fun d => d.2.2)
  let scc := sumBy data (fun d => d.1 * d.1)
  let scr := sumBy data (fun d => d.1 * d.2.1)
  let srr := sumBy data (fun d => d.2.1 * d.2.1)
  let scb := sumBy data (fun d => d.1 * d.2.2)
  let srb := sumBy data (fun d => d.2.1 * d.2.2)
  solve3 n sc sr sc scc scr sr scr srr sb scb srb

/-- The complete points of the store, with their data, in store order:
`[cp for cp in self.control_points if cp.is_complete]` together with the
`cols/rows/xs/ys` extraction (georefimg.py lines 806, 813-816). -/
def completePts (cps : List ControlPoint) : List (ℚ × ℚ × ℚ × ℚ) :=
  cps.filterMap (fun cp =>
    match cp.x, cp.y with
    | some xv, some yv => some (cp.col, cp.row, xv, yv)
    | _, _ => none)

/-- The fit of `compute_transform` (georefimg.py lines 817-823): two
independent least-squares solves, `[C,A,B]` against the xs and `[F,D,E]`
against the ys, packed as `(A,B,C,D,E,F)`. -/
def computeFit (complete : List (ℚ × ℚ × ℚ × ℚ)) : AffineT :=
  let px := lstsq3 (complete.map (fun q => (q.1, q.2.1, q.2.2.1)))
  let py := lstsq3 (complete.map (fun q => (q.1, q.2.1, q.2.2.2)))
  ⟨px.2.1, px.2.2, px.1, py.2.1, py.2.2, py.1⟩

/-- Squared RMSE reported by `compute_transform` (georefimg.py lines
825-828): `rmse = sqrt(mean(dx^2 + dy^2))` over the re-projected
complete points; over `ℚ` we track `rmse^2`, and `rmse ≈ 0 ↔ mse = 0`. -/
def mse (t : AffineT) (complete : List (ℚ × ℚ × ℚ × ℚ)) : ℚ :=
  (sumBy complete (fun q =>
    (q.2.2.1 - (pixel_to_world t q.1 q.2.1).1) ^ 2 +
    (q.2.2.2 - (pixel_to_world t q.1 q.2.1).2) ^ 2)) / complete.length

/-- Failure of `compute_transform`. -/
inductive FitError where
  | insufficientPoints
deriving DecidableEq

/-- `GeoRefApp.compute_transform` (georefimg.py lines 805-832): aborts
with the "Se requieren al menos 3 puntos" error when fewer than 3
complete points exist (the state is returned untouched), otherwise
stores the fitted transform. -/
def compute_transform (s : AppState) : AppState × Option FitError :=
  let complete := completePts s.control_points
  if complete.length < 3 then (s, some .insufficientPoints)
  else ({ s with transform := some (computeFit complete) }, none)

/-! ## WorldFileWriter -/

/-- Failure of `save_world_file`. -/
inductive SaveWFError where
  | notReady
deriving DecidableEq

/-- `GeoRefApp.save_world_file` (georefimg.py lines 834-849): refuses
when the transform is absent or no image is loaded (`not
self.image_path` is true for `None` and for the empty string), else
emits the six lines `A, D, B, E, C, F` in that order
(line 845: `wf.write(f"...")` with exactly this sequence). -/
def save_world_file (s : AppState) : Except SaveWFError (List ℚ) :=
  match s.transform, s.image_path with
  | some t, some p =>
      if p = "" then .error .notReady
      else .ok [t.A, t.D, t.B, t.E, t.C, t.F]
  | _, _ => .error .notReady

/-! ## ControlPointStore: CSV import -/

/-- One parsed CSV row.  A field is `none` when the column key is
missing from the row or its text does not parse as a float: in the
source both raise inside the same `try` (a `KeyError` from `r['col']`
or a `ValueError` from `float`), and every consumer catches the two
identically, so the embedding may conflate them. -/
structure CsvRow where
  col : Option ℚ := none
  row : Option ℚ := none
  x : Option ℚ := none
  y : Option ℚ := none
deriving DecidableEq

/-- Failures of `import_control_csv`, in the order the source checks
them (georefimg.py lines 760-780): no clicked points yet, empty CSV,
missing x/y columns, and the positional-mode row-count mismatch
(line 795). -/
inductive ImportError where
  | noPoints
  | emptyCsv
  | missingXY
  | countMismatch
deriving DecidableEq

/-- Squared pixel distance used by the nearest-point lookup
(georefimg.py line 791): `(cp.col - col)**2 + (cp.row - row)**2`. -/
def sqDist (cp : ControlPoint) (c r : ℚ) : ℚ :=
  (cp.col - c) ^ 2 + (cp.row - r) ^ 2

/-- Index (and key value) of the first stored point minimizing
`sqDist`, i.e. Python's `min(self.control_points, key=...)`, which
returns the earliest minimal element. -/
def minIdxAux (c r : ℚ) : List ControlPoint → Option (Nat × ℚ)
  | [] => none
  | cp :: rest =>
    let d := sqDist cp c r
    match minIdxAux c r rest with
    | none => some (0, d)
    | some (j, dj) => if dj < d then some (j + 1, dj) else some (0, d)

/-- One iteration of the nearest-pixel import loop (georefimg.py lines
784-792): if all four fields parse, overwrite the world coordinates of
the nearest stored point; otherwise `continue` (skip the row). -/
def nearestAssign (cps : List ControlPoint) (r : CsvRow) : List ControlPoint :=
  match r.col, r.row, r.x, r.y with
  | some c, some rw, some xv, some yv =>
    match minIdxAux c rw cps with
    | none => cps
    | some (i, _) =>
      match cps.get? i with
      | none => cps
      | some cp => cps.set i { cp with x := some xv, y := some yv }
  | _, _, _, _ => cps

/-- One iteration of the positional import loop (georefimg.py lines
797-801): `cp.x = float(r['x']); cp.y = float(r['y'])` inside a
`try/except: pass`, so a failing `x` assigns nothing while a failing
`y` still leaves the parsed `x` assigned. -/
def assignRow (cp : ControlPoint) (r : CsvRow) : ControlPoint :=
  match r.x with
  | none => cp
  | some xv =>
    match r.y with
    | none => { cp with x := some xv }
    | some yv => { cp with x := some xv, y := some yv }

/-- `GeoRefApp.import_control_csv` (georefimg.py lines 759-803).
`has_col` / `has_xy` model `'col' in rows[0] and 'row' in rows[0]` and
`'x' in rows[0] and 'y' in rows[0]` (key presence in the first row,
lines 777-778). -/
def import_control_csv (cps : List ControlPoint) (has_col has_xy : Bool)
    (rows : List CsvRow) : Except ImportError (List ControlPoint) :=
  if cps.isEmpty then .error .noPoints
  else if rows.isEmpty then .error .emptyCsv
  else if !has_xy then .error .missingXY
  else if has_col then .ok (rows.foldl nearestAssign cps)
  else if rows.length ≠ cps.length then .error .countMismatch
  else .ok (List.zipWith assignRow cps rows)

/-! ## PolygonModel: finishing rings and polygons -/

/-- Ring closure applied before committing (georefimg.py lines
603-604): append the first pixel vertex when it differs from the last. -/
def closeRingPx (pts : List (ℚ × ℚ)) : List (ℚ × ℚ) :=
  match pts.head?, pts.getLast? with
  | some h, some l => if h ≠ l then pts ++ [h] else pts
  | _, _ => pts

/-- Name resolution of `_finish_polygon` (georefimg.py lines 607-611
with `_ask_polygon_name`, lines 1199-1206): the dialog answer if
non-empty, else the default `Polígono {next_poly_id}`. -/
def resolveName (nameAns : Option String) (nextId : Nat) : String :=
  match nameAns with
  | some n => if n = "" then "Polígono " ++ toString nextId else n
  | none => "Polígono " ++ toString nextId

/-- Outcome of one `_finish_polygon` call. -/
inductive FinishOutcome where
  | noOp            -- guard: not drawing, or empty accumulator (line 584)
  | tooFewVertices  -- 1-2 vertices: "Se necesitan al menos 3 vértices" (line 597)
  | ringQueued      -- user chose to add another part to the group (line 621)
  | committed       -- a DigitizedPolygon was appended (lines 659, 677)
deriving DecidableEq

/-- `GeoRefApp._finish_polygon` (georefimg.py lines 581-698), with the
two dialog responses as explicit inputs: `nameAns` is the
`_ask_polygon_name` answer and `wants_more` the "¿Desea agregar otro
polígono a este grupo?" answer.  Modelled in the configuration where
shapely is not installed (`ShapelyPolygon is None`, lines 56-62), so
the optional best-effort cleanup of lines 636-650 is skipped, exactly
as the source skips it then. -/
def finish_polygon (s : AppState) (nameAns : Option String) (wants_more : Bool) :
    AppState × FinishOutcome :=
  if !s.drawing ∨ s.current_poly_pixels.isEmpty then (s, .noOp)
  else if s.current_poly_pixels.length < 3 then
    -- drawing is set False then restored from was_drawing (lines 588-599)
    (s, .tooFewVertices)
  else
    let ring := closeRingPx s.current_poly_pixels
    let name := match s.current_group_name with
      | some n => n
      | none => resolveName nameAns s.next_poly_id
    let grp := s.current_group_pixels ++ [ring]
    if wants_more then
      ({ s with current_poly_pixels := [], current_group_pixels := grp,
                current_group_name := some name, drawing := true },
       .ringQueued)
    else
      let poly : DigitizedPolygon :=
        if grp.length = 1 then
          { name := name
            pixel_points := .single ring
            world_points := .single (ring.map (fun p => pixel_to_world_app s.transform p.1 p.2))
            id := s.next_poly_id }
        else
          { name := name
            pixel_points := .group grp
            world_points := .group (grp.map (fun part =>
              part.map (fun p => pixel_to_world_app s.transform p.1 p.2)))
            id := s.next_poly_id }
      ({ s with current_poly_pixels := [], current_group_pixels := [],
                current_group_name := none, drawing := false, rect_start := none,
                polygons := s.polygons ++ [poly],
                next_poly_id := s.next_poly_id + 1 },
       .committed)

/-- `GeoRefApp.start_polygon` (georefimg.py lines 862-884): requires a
transform and pan mode off; arms drawing and clears the accumulator. -/
def start_polygon (s : AppState) : AppState :=
  match s.transform with
  | none => s
  | some _ =>
    if s.pan_mode then s
    else { s with drawing := true, rect_start := none, current_poly_pixels := [] }

/-- The stage-2 freehand branch of `on_click` (georefimg.py lines
432-450): appends a vertex while drawing (and not panning). -/
def add_vertex (s : AppState) (c r : ℚ) : AppState :=
  if s.stage = 2 ∧ s.drawing ∧ !s.pan_mode then
    { s with current_poly_pixels := s.current_poly_pixels ++ [(c, r)] }
  else s

/-- `GeoRefApp.delete_last_polygon` (georefimg.py lines 886-892): pops
the most recent polygon; `next_poly_id` is NOT decremented. -/
def delete_last_polygon (s : AppState) : AppState :=
  if s.polygons.isEmpty then s
  else { s with polygons := s.polygons.dropLast }

/-- The stage-1 branch of `on_click` (georefimg.py lines 426-431):
appends a fresh incomplete control point. -/
def add_control_point (s : AppState) (c r : ℚ) : AppState :=
  if s.stage = 1 then
    { s with control_points := s.control_points ++ [⟨c, r, none, none⟩] }
  else s

/-- `GeoRefApp.assign_coord` (georefimg.py lines 708-722) for a valid
listbox selection `i`; `List.set` is the identity out of range, matching
that an invalid index cannot be selected. -/
def assign_coord (s : AppState) (i : Nat) (xv yv : ℚ) : AppState :=
  match s.control_points.get? i with
  | none => s
  | some cp =>
    { s with control_points := s.control_points.set i { cp with x := some xv, y := some yv } }

/-- `GeoRefApp.go_to_polygons` (georefimg.py lines 851-859). -/
def go_to_polygons (s : AppState) : AppState :=
  match s.transform with
  | none => s
  | some _ => { s with stage := 2 }

/-- One user-level core operation of a session, used to state the
polygon-id discipline over arbitrary operation sequences. -/
inductive Op where
  | addControlPoint (c r : ℚ)
  | assignCoord (i : Nat) (x y : ℚ)
  | computeTransform
  | goToPolygons
  | startPolygon
  | addVertex (c r : ℚ)
  | finishPolygon (nameAns : Option String) (wants_more : Bool)
  | deleteLast

/-- Effect of one operation on the session state. -/
def step (s : AppState) : Op → AppState
  | .addControlPoint c r => add_control_point s c r
  | .assignCoord i x y => assign_coord s i x y
  | .computeTransform => (compute_transform s).1
  | .goToPolygons => go_to_polygons s
  | .startPolygon => start_polygon s
  | .addVertex c r => add_vertex s c r
  | .finishPolygon n m => (finish_polygon s n m).1
  | .deleteLast => delete_last_polygon s

/-- Instrumented step: additionally logs the id of every polygon the
step commits (the id a commit assigns is the pre-state `next_poly_id`,
georefimg.py lines 657, 675). -/
def stepLog (p : AppState × List Nat) (op : Op) : AppState × List Nat :=
  match op with
  | .finishPolygon n m =>
    let r := finish_polygon p.1 n m
    (r.1, if r.2 = .committed then p.2 ++ [p.1.next_poly_id] else p.2)
  | _ => (step p.1 op, p.2)

/-- Run a session from the freshly initialised app, logging every
assigned polygon id in commit order. -/
def runLog (ops : List Op) : AppState × List Nat :=
  ops.foldl stepLog (initState, [])

/-! ## Exporter: vertex table -/

/-- One CSV cell as `csv.writer` receives it (georefimg.py lines
941-953): an integer id or vertex index, a text name or `part{r}_v{v}`
label, a numeric coordinate, or a NaN coordinate. -/
inductive Cell where
  | nat (n : Nat)
  | txt (s : String)
  | rat (q : ℚ)
  | nan
deriving DecidableEq

/-- The two coordinate cells of one world vertex. -/
def xyCells : WPoint → List Cell
  | some p => [.rat p.1, .rat p.2]
  | none => [.nan, .nan]

/-- The header row written at georefimg.py line 941. -/
def csv_header : List String := ["poly_id", "name", "vertex_index", "x", "y"]

/-- Rows for a single-ring polygon (georefimg.py lines 952-953):
`writer.writerow([poly.id, poly.name, i, x, y])` for each enumerated
vertex, starting the enumeration at `i`. -/
def singleRows (pid : Nat) (nm : String) : Nat → List WPoint → List (List Cell)
  | _, [] => []
  | i, w :: ws => ([.nat pid, .txt nm, .nat i] ++ xyCells w) :: singleRows pid nm (i + 1) ws

/-- The vertex-index label of a group row (georefimg.py line 950):
`f"part{part_idx}_v{vertex_idx}"`. -/
def partLabel (pi vi : Nat) : String :=
  "part" ++ toString pi ++ "_v" ++ toString vi

/-- Rows of one part of a group polygon (georefimg.py lines 949-950). -/
def partRows (pid : Nat) (nm : String) (pi : Nat) : Nat → List WPoint → List (List Cell)
  | _, [] => []
  | vi, w :: ws =>
    ([.nat pid, .txt nm, .txt (partLabel pi vi)] ++ xyCells w) :: partRows pid nm pi (vi + 1) ws

/-- Rows of all parts of a group polygon, enumerating parts from `pi`
(georefimg.py line 948). -/
def groupRows (pid : Nat) (nm : String) : Nat → List (List WPoint) → List (List Cell)
  | _, [] => []
  | pi, part :: parts => partRows pid nm pi 0 part ++ groupRows pid nm (pi + 1) parts

/-- All rows of one polygon (georefimg.py lines 942-953): the
`isinstance(poly.world_points[0], list)` test selects the group or the
single encoding. -/
def polyRows (p : DigitizedPolygon) : List (List Cell) :=
  match p.world_points with
  | .single pts => singleRows p.id p.name 0 pts
  | .group parts => groupRows p.id p.name 0 parts

/-- The vertex rows of the whole collection, in commit order. -/
def vertexRows : List DigitizedPolygon → List (List Cell)
  | [] => []
  | p :: ps => polyRows p ++ vertexRows ps

/-- Number of vertices (rows expected) of one polygon. -/
def vertexCount (p : DigitizedPolygon) : Nat :=
  match p.world_points with
  | .single pts => pts.length
  | .group parts => (parts.map List.length).sum

/-- Failures of `export_polygons` (georefimg.py lines 894-906). -/
inductive ExportError where
  | noPolygons
  | missingPyshp
deriving DecidableEq

/-- The vertex-table side of `GeoRefApp.export_polygons` (georefimg.py
lines 894-957): aborts when there are no polygons, or (before any CSV
is written) when the pyshp writer library is unavailable; else the
emitted table is the header plus one row per vertex. -/
def export_polygons (pyshp : Bool) (polys : List DigitizedPolygon) :
    Except ExportError (List String × List (List Cell)) :=
  if polys.isEmpty then .error .noPolygons
  else if !pyshp then .error .missingPyshp
  else .ok (csv_header, vertexRows polys)

/-! ## Concrete fixtures used by witnesses and counterexamples -/

/-- A store of two incomplete control points. -/
def storeTwo : List ControlPoint := [⟨0, 0, none, none⟩, ⟨5, 5, none, none⟩]

/-- A store of three incomplete control points. -/
def storeThree : List ControlPoint :=
  [⟨0, 0, none, none⟩, ⟨5, 5, none, none⟩, ⟨9, 9, none, none⟩]

/-- The spec's worked import example: two rows carrying only x,y. -/
def rowsTwo : List CsvRow :=
  [⟨none, none, some 1, some 2⟩, ⟨none, none, some 3, some 4⟩]

/-- A stage-2 session with the example transform, currently drawing the
given accumulated ring. -/
def drawState (pix : List (ℚ × ℚ)) : AppState :=
  { transform := some ⟨1, 0, 100, 0, -1, 200⟩
    stage := 2
    drawing := true
    current_poly_pixels := pix }

/-- A committed single-ring triangle polygon. -/
def samplePolys : List DigitizedPolygon :=
  [{ name := "a"
     pixel_points := .single [(0, 0), (1, 0), (1, 1)]
     world_points := .single [some (0, 0), some (1, 0), some (1, 1)]
     id := 1 }]

/-- A session with two complete and one incomplete control point and a
previously stored transform. -/
def twoPointState : AppState :=
  { control_points := [⟨0, 0, some 1, some 2⟩, ⟨5, 5, some 3, some 4⟩, ⟨9, 9, none, none⟩]
    transform := some ⟨1, 0, 0, 0, 1, 0⟩ }

/-- A session holding the transform of the spec's worked example and a
loaded image. -/
def exampleTransformState : AppState :=
  { transform := some ⟨1, 0, 100, 0, -1, 200⟩
    image_path := some "map.png" }

/-! ## Helper lemmas -/

/-- Cramer solution of the 3-point normal equations interpolates the
three data points whenever the design matrix is nonsingular. -/
theorem lstsq3_exact (c1 r1 b1 c2 r2 b2 c3 r3 b3 : ℚ)
    (hG : det3 1 c1 r1 1 c2 r2 1 c3 r3 ≠ 0) (p : ℚ × ℚ × ℚ)
    (hp : p = lstsq3 [(c1, r1, b1), (c2, r2, b2), (c3, r3, b3)]) :
    p.1 + p.2.1 * c1 + p.2.2 * r1 = b1 ∧
    p.1 + p.2.1 * c2 + p.2.2 * r2 = b2 ∧
    p.1 + p.2.1 * c3 + p.2.2 * r3 = b3 := by
  have e : lstsq3 [(c1, r1, b1), (c2, r2, b2), (c3, r3, b3)]
      = solve3 3 (c1 + (c2 + c3)) (r1 + (r2 + r3)) (c1 + (c2 + c3))
        (c1 * c1 + (c2 * c2 + c3 * c3)) (c1 * r1 + (c2 * r2 + c3 * r3))
        (r1 + (r2 + r3)) (c1 * r1 + (c2 * r2 + c3 * r3))
        (r1 * r1 + (r2 * r2 + r3 * r3))
        (b1 + (b2 + b3)) (c1 * b1 + (c2 * b2 + c3 * b3))
        (r1 * b1 + (r2 * b2 + r3 * b3)) := by
    simp [lstsq3, sumBy]
  have hΔ : det3 3 (c1 + (c2 + c3)) (r1 + (r2 + r3)) (c1 + (c2 + c3))
      (c1 * c1 + (c2 * c2 + c3 * c3)) (c1 * r1 + (c2 * r2 + c3 * r3))
      (r1 + (r2 + r3)) (c1 * r1 + (c2 * r2 + c3 * r3))
      (r1 * r1 + (r2 * r2 + r3 * r3))
      = det3 1 c1 r1 1 c2 r2 1 c3 r3 ^ 2 := by
    simp only [det3]; ring
  have hΔne : det3 3 (c1 + (c2 + c3)) (r1 + (r2 + r3)) (c1 + (c2 + c3))
      (c1 * c1 + (c2 * c2 + c3 * c3)) (c1 * r1 + (c2 * r2 + c3 * r3))
      (r1 + (r2 + r3)) (c1 * r1 + (c2 * r2 + c3 * r3))
      (r1 * r1 + (r2 * r2 + r3 * r3)) ≠ 0 := by
    rw [hΔ]; exact pow_ne_zero 2 hG
  subst hp
  rw [e]
  refine ⟨?_, ?_, ?_⟩ <;>
    (simp only [solve3]; field_simp; simp only [det3]; ring)

/-- Pointwise description of the positional assignment pass. -/
theorem zipWith_assignRow_get (cps : List ControlPoint) (rows : List CsvRow) :
    ∀ (i : Nat) (cp : ControlPoint) (r : CsvRow),
      cps[i]? = some cp → rows[i]? = some r →
      (List.zipWith assignRow cps rows)[i]? = some (assignRow cp r) := by
  induction cps generalizing rows with
  | nil => intro i cp r h; simp at h
  | cons c cs ih =>
    intro i cp r hc hr
    cases rows with
    | nil => simp at hr
    | cons q qs =>
      cases i with
      | zero =>
        simp at hc hr
        simp [hc, hr]
      | succ j =>
        simp at hc hr
        simpa using ih qs j cp r hc hr

/-- `minIdxAux` returns the index of a stored point of minimal squared
pixel distance (Python's `min`). -/
theorem minIdxAux_spec (c r : ℚ) :
    ∀ (cps : List ControlPoint), cps ≠ [] →
      ∃ i d cp, minIdxAux c r cps = some (i, d) ∧
        cps[i]? = some cp ∧ d = sqDist cp c r ∧
        ∀ (j : Nat) (cp' : ControlPoint), cps[j]? = some cp' → d ≤ sqDist cp' c r := by
  intro cps
  induction cps with
  | nil => intro h; exact absurd rfl h
  | cons p ps ih =>
    intro _
    by_cases hps : ps = []
    · subst hps
      refine ⟨0, sqDist p c r, p, ?_, by simp, rfl, ?_⟩
      · simp [minIdxAux]
      · intro j cp' hj
        cases j with
        | zero => simp at hj; simp [hj]
        | succ k => simp at hj
    · obtain ⟨i, d, cp, hmin, hget, hd, hle⟩ := ih hps
      by_cases hlt : d < sqDist p c r
      · refine ⟨i + 1, d, cp, ?_, by simpa using hget, hd, ?_⟩
        · simp [minIdxAux, hmin, hlt]
        · intro j cp' hj
          cases j with
          | zero => simp at hj; subst hj; exact le_of_lt hlt
          | succ k => exact hle k cp' (by simpa using hj)
      · refine ⟨0, sqDist p c r, p, ?_, by simp, rfl, ?_⟩
        · simp [minIdxAux, hmin, hlt]
        · intro j cp' hj
          cases j with
          | zero => simp at hj; simp [hj]
          | succ k =>
            have := hle k cp' (by simpa using hj)
            exact le_trans (not_lt.mp hlt) this

/-- `_finish_polygon` bumps `next_poly_id` exactly on commit. -/
theorem finish_polygon_next_id (s : AppState) (n : Option String) (m : Bool) :
    ((finish_polygon s n m).2 = .committed ∧
      (finish_polygon s n m).1.next_poly_id = s.next_poly_id + 1) ∨
    ((finish_polygon s n m).2 ≠ .committed ∧
      (finish_polygon s n m).1.next_poly_id = s.next_poly_id) := by
  by_cases hg : s.drawing = false ∨ s.current_poly_pixels = []
  · right; constructor <;> simp [finish_polygon, hg]
  · by_cases h3 : s.current_poly_pixels.length < 3
    · right; constructor <;> simp [finish_polygon, hg, h3]
    · cases m with
      | false => left; constructor <;> simp [finish_polygon, hg, h3]
      | true => right; constructor <;> simp [finish_polygon, hg, h3]

/-- No operation other than a polygon commit touches `next_poly_id`. -/
theorem step_next_id (s : AppState) (op : Op)
    (h : ∀ n m, op ≠ .finishPolygon n m) :
    (step s op).next_poly_id = s.next_poly_id := by
  cases op with
  | addControlPoint c r => simp only [step, add_control_point]; split <;> rfl
  | assignCoord i x y => simp only [step, assign_coord]; split <;> rfl
  | computeTransform => simp only [step, compute_transform]; split <;> rfl
  | goToPolygons => simp only [step, go_to_polygons]; split <;> rfl
  | startPolygon => simp only [step, start_polygon]; split <;> first | rfl | (split <;> rfl)
  | addVertex c r => simp only [step, add_vertex]; split <;> rfl
  | finishPolygon n m => exact absurd rfl (h n m)
  | deleteLast => simp only [step, delete_last_polygon]; split <;> rfl

/-- Appending the successor of the length extends an initial segment. -/
theorem log_concat_range (l : List Nat) (n : Nat)
    (hl : l = List.range' 1 l.length) (hn : n = l.length + 1) :
    l ++ [n] = List.range' 1 (l ++ [n]).length := by
  subst hn
  simp only [List.length_append, List.length_singleton]
  conv_lhs => rw [hl]
  rw [List.range'_concat]
  simp [Nat.add_comm]

/-- The id log stays the initial segment `1..k` with `next_poly_id = k+1`
across every operation. -/
theorem stepLog_inv (p : AppState × List Nat) (op : Op)
    (h1 : p.1.next_poly_id = p.2.length + 1)
    (h2 : p.2 = List.range' 1 p.2.length) :
    (stepLog p op).1.next_poly_id = (stepLog p op).2.length + 1 ∧
    (stepLog p op).2 = List.range' 1 (stepLog p op).2.length := by
  cases op with
  | finishPolygon n m =>
    rcases finish_polygon_next_id p.1 n m with ⟨hc, hn⟩ | ⟨hc, hn⟩
    · simp only [stepLog]
      rw [if_pos hc]
      constructor
      · rw [hn, h1]; simp
      · exact log_concat_range p.2 p.1.next_poly_id h2 h1
    · simp only [stepLog]
      rw [if_neg hc]
      exact ⟨by rw [hn]; exact h1, h2⟩
  | addControlPoint c r =>
    exact ⟨by simp only [stepLog]; rw [step_next_id p.1 _ (by intro n m h; cases h)]; exact h1, h2⟩
  | assignCoord i x y =>
    exact ⟨by simp only [stepLog]; rw [step_next_id p.1 _ (by intro n m h; cases h)]; exact h1, h2⟩
  | computeTransform =>
    exact ⟨by simp only [stepLog]; rw [step_next_id p.1 _ (by intro n m h; cases h)]; exact h1, h2⟩
  | goToPolygons =>
    exact ⟨by simp only [stepLog]; rw [step_next_id p.1 _ (by intro n m h; cases h)]; exact h1, h2⟩
  | startPolygon =>
    exact ⟨by simp only [stepLog]; rw [step_next_id p.1 _ (by intro n m h; cases h)]; exact h1, h2⟩
  | addVertex c r =>
    exact ⟨by simp only [stepLog]; rw [step_next_id p.1 _ (by intro n m h; cases h)]; exact h1, h2⟩
  | deleteLast =>
    exact ⟨by simp only [stepLog]; rw [step_next_id p.1 _ (by intro n m h; cases h)]; exact h1, h2⟩

/-- A world vertex always contributes exactly two cells. -/
theorem xyCells_length (w : WPoint) : (xyCells w).length = 2 := by
  cases w <;> rfl

/-- One row per vertex for single-ring polygons. -/
theorem singleRows_length (pid : Nat) (nm : String) :
    ∀ (i : Nat) (ws : List WPoint), (singleRows pid nm i ws).length = ws.length := by
  intro i ws
  induction ws generalizing i with
  | nil => rfl
  | cons w rest ih => simp [singleRows, ih]

/-- One row per vertex within a group part. -/
theorem partRows_length (pid : Nat) (nm : String) (pi : Nat) :
    ∀ (vi : Nat) (ws : List WPoint), (partRows pid nm pi vi ws).length = ws.length := by
  intro vi ws
  induction ws generalizing vi with
  | nil => rfl
  | cons w rest ih => simp [partRows, ih]

/-- One row per vertex across all parts of a group. -/
theorem groupRows_length (pid : Nat) (nm : String) :
    ∀ (pi : Nat) (parts : List (List WPoint)),
      (groupRows pid nm pi parts).length = (parts.map List.length).sum := by
  intro pi parts
  induction parts generalizing pi with
  | nil => rfl
  | cons part rest ih => simp [groupRows, partRows_length, ih]

/-- One row per vertex for any polygon. -/
theorem polyRows_length (p : DigitizedPolygon) :
    (polyRows p).length = vertexCount p := by
  cases h : p.world_points with
  | single pts => simp [polyRows, vertexCount, h, singleRows_length]
  | group parts => simp [polyRows, vertexCount, h, groupRows_length]

/-- The export concatenates polygon blocks in commit order. -/
theorem vertexRows_append (ps qs : List DigitizedPolygon) :
    vertexRows (ps ++ qs) = vertexRows ps ++ vertexRows qs := by
  induction ps with
  | nil => rfl
  | cons p rest ih => simp [vertexRows, ih]

/-- Total row count equals total vertex count. -/
theorem vertexRows_length (ps : List DigitizedPolygon) :
    (vertexRows ps).length = (ps.map vertexCount).sum := by
  induction ps with
  | nil => rfl
  | cons p rest ih => simp [vertexRows, polyRows_length, ih]

/-- Field layout of the `j`-th single-ring row. -/
theorem singleRows_getElem (pid : Nat) (nm : String) :
    ∀ (i j : Nat) (ws : List WPoint) (w : WPoint), ws[j]? = some w →
      (singleRows pid nm i ws)[j]? = some ([.nat pid, .txt nm, .nat (i + j)] ++ xyCells w) := by
  intro i j ws
  induction ws generalizing i j with
  | nil => intro w h; simp at h
  | cons v rest ih =>
    intro w h
    cases j with
    | zero => simp at h; simp [singleRows, h]
    | succ k =>
      simp at h
      have := ih (i + 1) k w h
      simpa [singleRows, Nat.add_assoc, Nat.add_comm 1 k] using this

/-- Field layout of the `j`-th row of one group part. -/
theorem partRows_getElem (pid : Nat) (nm : String) (pi : Nat) :
    ∀ (vi j : Nat) (ws : List WPoint) (w : WPoint), ws[j]? = some w →
      (partRows pid nm pi vi ws)[j]?
        = some ([.nat pid, .txt nm, .txt (partLabel pi (vi + j))] ++ xyCells w) := by
  intro vi j ws
  induction ws generalizing vi j with
  | nil => intro w h; simp at h
  | cons v rest ih =>
    intro w h
    cases j with
    | zero => simp at h; simp [partRows, h]
    | succ k =>
      simp at h
      have := ih (vi + 1) k w h
      simpa [partRows, Nat.add_assoc, Nat.add_comm 1 k] using this

/-- Every exported vertex row has exactly 5 cells. -/
theorem rows_five_cells (ps : List DigitizedPolygon) :
    ∀ row ∈ vertexRows ps, row.length = 5 := by
  have hsingle : ∀ (pid : Nat) (nm : String) (i : Nat) (ws : List WPoint),
      ∀ row ∈ singleRows pid nm i ws, row.length = 5 := by
    intro pid nm i ws
    induction ws generalizing i with
    | nil => intro row h; simp [singleRows] at h
    | cons w rest ih =>
      intro row h
      rcases (by simpa [singleRows] using h : _ ∨ _) with h1 | h1
      · subst h1; simp [xyCells_length]
      · exact ih (i + 1) row h1
  have hpart : ∀ (pid : Nat) (nm : String) (pi vi : Nat) (ws : List WPoint),
      ∀ row ∈ partRows pid nm pi vi ws, row.length = 5 := by
    intro pid nm pi vi ws
    induction ws generalizing vi with
    | nil => intro row h; simp [partRows] at h
    | cons w rest ih =>
      intro row h
      rcases (by simpa [partRows] using h : _ ∨ _) with h1 | h1
      · subst h1; simp [xyCells_length]
      · exact ih (vi + 1) row h1
  have hgroup : ∀ (pid : Nat) (nm : String) (pi : Nat) (parts : List (List WPoint)),
      ∀ row ∈ groupRows pid nm pi parts, row.length = 5 := by
    intro pid nm pi parts
    induction parts generalizing pi with
    | nil => intro row h; simp [groupRows] at h
    | cons part rest ih =>
      intro row h
      rcases (by simpa [groupRows] using h : _ ∨ _) with h1 | h1
      · exact hpart pid nm pi 0 part row h1
      · exact ih (pi + 1) row h1
  induction ps with
  | nil => intro row h; simp [vertexRows] at h
  | cons p rest ih =>
    intro row h
    rcases (by simpa [vertexRows] using h : _ ∨ _) with h1 | h1
    · cases hw : p.world_points with
      | single pts => exact hsingle p.id p.name 0 pts row (by simpa [polyRows, hw] using h1)
      | group parts => exact hgroup p.id p.name 0 parts row (by simpa [polyRows, hw] using h1)
    · exact ih row h1

/-! ## Claim theorems -/

/-- C1: for every control-point list with fewer than 3 complete points
(both pixel and world coordinates set), `compute_transform` fails with
the insufficient-points error, the operation is aborted before any fit
is attempted, and the whole prior state — in particular the stored
transform — is returned unmodified. -/
theorem compute_transform_insufficient_aborts (s : AppState)
    (h : (completePts s.control_points).length < 3) :
    compute_transform s = (s, some .insufficientPoints) := by
  simp only [compute_transform, if_pos h]

/-- Witness for C1: a store with two complete points and one incomplete
point aborts and leaves the previously stored transform in place. -/
theorem compute_transform_insufficient_aborts_witness :
    (completePts twoPointState.control_points).length < 3 ∧
    compute_transform twoPointState = (twoPointState, some .insufficientPoints) :=
  ⟨by simp [completePts, twoPointState],
   compute_transform_insufficient_aborts _ (by simp [completePts, twoPointState])⟩

/-- C2: for every stored transform with parameters `(A,B,C,D,E,F)` (and
a loaded image), the world-file write emits exactly 6 numeric lines in
the fixed order `A, D, B, E, C, F`, not declaration order. -/
theorem save_world_file_line_order (s : AppState) (t : AffineT) (p : String)
    (ht : s.transform = some t) (hp : s.image_path = some p) (hne : p ≠ "") :
    save_world_file s = .ok [t.A, t.D, t.B, t.E, t.C, t.F] ∧
    [t.A, t.D, t.B, t.E, t.C, t.F].length = 6 := by
  constructor
  · simp only [save_world_file, ht, hp, if_neg hne]
  · rfl

/-- Witness for C2: the transform `A=1,B=0,C=100,D=0,E=-1,F=200` of the
spec's worked example is written as the lines `1, 0, 0, -1, 100, 200`. -/
theorem save_world_file_line_order_witness :
    save_world_file exampleTransformState = .ok [1, 0, 0, -1, 100, 200] ∧
    ([1, 0, 0, -1, 100, 200] : List ℚ).length = 6 :=
  save_world_file_line_order exampleTransformState
    ⟨1, 0, 100, 0, -1, 200⟩ "map.png" rfl rfl (by simp)

/-- C4: for every transform whose 2x2 linear part `[[A,B],[D,E]]` is
nonsingular, applying the inverse transform to the forward image of any
pixel `(col,row)` recovers `(col,row)` exactly (the embedding computes
over `ℚ`, so "within tolerance" becomes equality). -/
theorem world_pixel_roundtrip (t : AffineT) (col row : ℚ)
    (h : t.A * t.E - t.B * t.D ≠ 0) :
    world_to_pixel t (pixel_to_world t col row).1 (pixel_to_world t col row).2
      = some (col, row) := by
  simp only [pixel_to_world, world_to_pixel, if_neg h, Option.some.injEq, Prod.mk.injEq]
  constructor <;> (field_simp; ring)

/-- Witness for C4: the transform `(2,1,5,1,3,7)` (det 5) round-trips
the pixel `(4, -3)`. -/
theorem world_pixel_roundtrip_witness :
    (2 * 3 - 1 * 1 : ℚ) ≠ 0 ∧
    world_to_pixel ⟨2, 1, 5, 1, 3, 7⟩
        (pixel_to_world ⟨2, 1, 5, 1, 3, 7⟩ 4 (-3)).1
        (pixel_to_world ⟨2, 1, 5, 1, 3, 7⟩ 4 (-3)).2
      = some (4, -3) :=
  ⟨by norm_num, world_pixel_roundtrip ⟨2, 1, 5, 1, 3, 7⟩ 4 (-3) (by norm_num)⟩

/-- C3: for every set of exactly 3 complete control points with
non-collinear pixel locations (nonzero design determinant), the fit of
`compute_transform` is exact — re-projecting each of the 3 pixel points
through the fitted transform reproduces its assigned world coordinates
(exactly, since the embedding computes over `ℚ`) and the mean squared
residual behind the reported rmse is 0 — and in particular the points
`(0,0)→(100,200), (10,0)→(110,200), (0,10)→(100,190)` fit to
`A=1, B=0, C=100, D=0, E=-1, F=200`. -/
theorem fit_three_points_exact :
    (∀ c1 r1 x1 y1 c2 r2 x2 y2 c3 r3 x3 y3 : ℚ,
      det3 1 c1 r1 1 c2 r2 1 c3 r3 ≠ 0 →
      ∀ t : AffineT,
        t = computeFit [(c1, r1, x1, y1), (c2, r2, x2, y2), (c3, r3, x3, y3)] →
        pixel_to_world t c1 r1 = (x1, y1) ∧
        pixel_to_world t c2 r2 = (x2, y2) ∧
        pixel_to_world t c3 r3 = (x3, y3) ∧
        mse t [(c1, r1, x1, y1), (c2, r2, x2, y2), (c3, r3, x3, y3)] = 0) ∧
    computeFit [(0, 0, 100, 200), (10, 0, 110, 200), (0, 10, 100, 190)]
      = ⟨1, 0, 100, 0, -1, 200⟩ := by
  constructor
  · intro c1 r1 x1 y1 c2 r2 x2 y2 c3 r3 x3 y3 hG t ht
    have hx := lstsq3_exact c1 r1 x1 c2 r2 x2 c3 r3 x3 hG
      (lstsq3 [(c1, r1, x1), (c2, r2, x2), (c3, r3, x3)]) rfl
    have hy := lstsq3_exact c1 r1 y1 c2 r2 y2 c3 r3 y3 hG
      (lstsq3 [(c1, r1, y1), (c2, r2, y2), (c3, r3, y3)]) rfl
    have htA : t = ⟨(lstsq3 [(c1, r1, x1), (c2, r2, x2), (c3, r3, x3)]).2.1,
        (lstsq3 [(c1, r1, x1), (c2, r2, x2), (c3, r3, x3)]).2.2,
        (lstsq3 [(c1, r1, x1), (c2, r2, x2), (c3, r3, x3)]).1,
        (lstsq3 [(c1, r1, y1), (c2, r2, y2), (c3, r3, y3)]).2.1,
        (lstsq3 [(c1, r1, y1), (c2, r2, y2), (c3, r3, y3)]).2.2,
        (lstsq3 [(c1, r1, y1), (c2, r2, y2), (c3, r3, y3)]).1⟩ := by
      rw [ht]; simp [computeFit]
    have h1 : pixel_to_world t c1 r1 = (x1, y1) := by
      rw [htA]; simp only [pixel_to_world, Prod.mk.injEq]
      exact ⟨hx.1, hy.1⟩
    have h2 : pixel_to_world t c2 r2 = (x2, y2) := by
      rw [htA]; simp only [pixel_to_world, Prod.mk.injEq]
      exact ⟨hx.2.1, hy.2.1⟩
    have h3 : pixel_to_world t c3 r3 = (x3, y3) := by
      rw [htA]; simp only [pixel_to_world, Prod.mk.injEq]
      exact ⟨hx.2.2, hy.2.2⟩
    refine ⟨h1, h2, h3, ?_⟩
    simp [mse, sumBy, h1, h2, h3]
  · norm_num [computeFit, lstsq3, sumBy, solve3, det3]

/-- Witness for C3: the spec's worked example has a nonsingular design
matrix, and the fitted transform reproduces all three world coordinates
with zero mean squared residual. -/
theorem fit_three_points_exact_witness :
    det3 1 0 0 1 10 0 1 0 10 ≠ 0 ∧
    (pixel_to_world (computeFit [(0, 0, 100, 200), (10, 0, 110, 200), (0, 10, 100, 190)])
        0 0 = (100, 200) ∧
      pixel_to_world (computeFit [(0, 0, 100, 200), (10, 0, 110, 200), (0, 10, 100, 190)])
        10 0 = (110, 200) ∧
      pixel_to_world (computeFit [(0, 0, 100, 200), (10, 0, 110, 200), (0, 10, 100, 190)])
        0 10 = (100, 190) ∧
      mse (computeFit [(0, 0, 100, 200), (10, 0, 110, 200), (0, 10, 100, 190)])
        [(0, 0, 100, 200), (10, 0, 110, 200), (0, 10, 100, 190)] = 0) :=
  ⟨by norm_num [det3],
   fit_three_points_exact.1 0 0 100 200 10 0 110 200 0 10 100 190
     (by norm_num [det3]) _ rfl⟩

/-- C5 (counterexample): two concrete count-mismatched imports that do
NOT fail with the count-mismatch error.  Against an EMPTY store a 1-row
x,y table is rejected by the earlier "Primero cree puntos" guard
(georefimg.py lines 760-762); against a nonempty store a header-only
table with ZERO data rows is rejected by the "CSV vacío" guard (lines
773-775).  Both are different failure kinds, refuting the universal
claim that a differing row count fails with CountMismatch. -/
theorem import_positional_early_guard_counterexample :
    (([(⟨none, none, some 1, some 2⟩ : CsvRow)].length ≠ ([] : List ControlPoint).length) ∧
      import_control_csv [] false true [⟨none, none, some 1, some 2⟩] = .error .noPoints ∧
      (Except.error ImportError.noPoints
        ≠ (Except.error ImportError.countMismatch : Except ImportError (List ControlPoint)))) ∧
    ((([] : List CsvRow).length ≠ storeTwo.length) ∧
      import_control_csv storeTwo false true [] = .error .emptyCsv ∧
      (Except.error ImportError.emptyCsv
        ≠ (Except.error ImportError.countMismatch : Except ImportError (List ControlPoint)))) := by
  refine ⟨⟨by simp, by simp [import_control_csv], by simp⟩,
    ⟨by simp [storeTwo], by simp [import_control_csv, storeTwo], by simp⟩⟩

/-- C5 (amended): the import's validation guards fire in a fixed order
before mode selection: an empty store is always rejected with the
no-points error (whatever the table holds), and a table with zero data
rows is always rejected with the empty-CSV error — in both cases a
differing count yields those failure kinds, NOT CountMismatch.  Past
those guards (nonempty store, at least one data row), positional mode
behaves as claimed: a row count differing from the point count fails
with the count-mismatch error and assigns nothing; with equal counts,
row `i` is assigned to stored point `i`, 1:1 in store order and row
order (the world coordinates of point `i` become row `i`'s x,y whenever
both parse). -/
theorem import_positional_count_behavior :
    (∀ (has_col has_xy : Bool) (rows : List CsvRow),
      import_control_csv [] has_col has_xy rows = .error .noPoints) ∧
    (∀ (cps : List ControlPoint) (has_col has_xy : Bool), cps ≠ [] →
      import_control_csv cps has_col has_xy [] = .error .emptyCsv) ∧
    (∀ (cps : List ControlPoint) (rows : List CsvRow),
      cps ≠ [] → rows ≠ [] → rows.length ≠ cps.length →
      import_control_csv cps false true rows = .error .countMismatch) ∧
    (∀ (cps : List ControlPoint) (rows : List CsvRow),
      cps ≠ [] → rows.length = cps.length →
      ∃ out, import_control_csv cps false true rows = .ok out ∧
        out.length = cps.length ∧
        ∀ (i : Nat) (cp : ControlPoint) (r : CsvRow),
          cps[i]? = some cp → rows[i]? = some r →
          out[i]? = some (assignRow cp r) ∧
          ∀ xv yv, r.x = some xv → r.y = some yv →
            assignRow cp r = { cp with x := some xv, y := some yv }) := by
  refine ⟨?_, ?_, ?_, ?_⟩
  · intro has_col has_xy rows
    simp [import_control_csv]
  · intro cps has_col has_xy hc
    simp [import_control_csv, List.isEmpty_iff, hc]
  · intro cps rows hc hr hne
    simp [import_control_csv, List.isEmpty_iff, hc, hr, hne]
  · intro cps rows hc hlen
    have hr : rows ≠ [] := by
      intro h; subst h; simp at hlen; exact hc (List.eq_nil_of_length_eq_zero hlen.symm)
    refine ⟨List.zipWith assignRow cps rows, ?_, ?_, ?_⟩
    · simp [import_control_csv, List.isEmpty_iff, hc, hr, hlen]
    · simp [List.length_zipWith, hlen]
    · intro i cp r hcp hrr
      refine ⟨zipWith_assignRow_get cps rows i cp r hcp hrr, ?_⟩
      intro xv yv hx hy
      simp [assignRow, hx, hy]

/-- Witness for C5: an empty store and an empty table hit the earlier
guards; the spec's worked example — the 2-row table against a 3-point
store fails with the count mismatch; against a 2-point store row 0 goes
to point 0 and row 1 to point 1. -/
theorem import_positional_count_behavior_witness :
    import_control_csv [] false true rowsTwo = .error .noPoints ∧
    import_control_csv storeThree false true [] = .error .emptyCsv ∧
    import_control_csv storeThree false true rowsTwo = .error .countMismatch ∧
    (∃ out, import_control_csv storeTwo false true rowsTwo = .ok out ∧
      out[0]? = some ⟨0, 0, some 1, some 2⟩ ∧ out[1]? = some ⟨5, 5, some 3, some 4⟩) := by
  refine ⟨?_, ?_, ?_, ?_⟩
  · exact import_positional_count_behavior.1 false true rowsTwo
  · exact import_positional_count_behavior.2.1 storeThree false true (by simp [storeThree])
  · exact import_positional_count_behavior.2.2.1 storeThree rowsTwo
      (by simp [storeThree]) (by simp [rowsTwo]) (by simp [storeThree, rowsTwo])
  · obtain ⟨out, hok, _, hidx⟩ := import_positional_count_behavior.2.2.2 storeTwo rowsTwo
      (by simp [storeTwo]) (by simp [storeTwo, rowsTwo])
    refine ⟨out, hok, ?_, ?_⟩
    · have h := (hidx 0 ⟨0, 0, none, none⟩ ⟨none, none, some 1, some 2⟩
        (by simp [storeTwo]) (by simp [rowsTwo])).1
      rw [h]; simp [assignRow]
    · have h := (hidx 1 ⟨5, 5, none, none⟩ ⟨none, none, some 3, some 4⟩
        (by simp [storeTwo]) (by simp [rowsTwo])).1
      rw [h]; simp [assignRow]

/-- C6: in nearest-pixel import mode, a fully parsable row overwrites
the world coordinates of a stored point of minimal squared pixel
distance `(Δcol)² + (Δrow)²`; a row with any unparsable numeric field
is skipped leaving the store untouched; and the import as a whole
succeeds (never aborts), returning the left fold of the per-row
assignment. -/
theorem import_nearest_mode_behavior :
    (∀ (cps : List ControlPoint) (r : CsvRow),
      r.col = none ∨ r.row = none ∨ r.x = none ∨ r.y = none →
      nearestAssign cps r = cps) ∧
    (∀ (cps : List ControlPoint) (c rw xv yv : ℚ), cps ≠ [] →
      ∃ (i : Nat) (cp : ControlPoint),
        cps[i]? = some cp ∧
        (∀ (j : Nat) (cp' : ControlPoint), cps[j]? = some cp' →
          sqDist cp c rw ≤ sqDist cp' c rw) ∧
        nearestAssign cps ⟨some c, some rw, some xv, some yv⟩
          = cps.set i { cp with x := some xv, y := some yv }) ∧
    (∀ (cps : List ControlPoint) (rows : List CsvRow),
      cps ≠ [] → rows ≠ [] →
      import_control_csv cps true true rows = .ok (rows.foldl nearestAssign cps)) := by
  refine ⟨?_, ?_, ?_⟩
  · intro cps r h
    obtain ⟨co, ro, xx, yy⟩ := r
    cases co <;> cases ro <;> cases xx <;> cases yy <;> simp_all [nearestAssign]
  · intro cps c rw xv yv hne
    obtain ⟨i, d, cp, hmin, hget, hd, hle⟩ := minIdxAux_spec c rw cps hne
    refine ⟨i, cp, hget, fun j cp' hj => hd ▸ hle j cp' hj, ?_⟩
    simp [nearestAssign, hmin, hget]
  · intro cps rows hc hr
    simp [import_control_csv, List.isEmpty_iff, hc, hr]

/-- Witness for C6: a row with an unparsable `row` field is skipped and
the whole import still succeeds; a parsable row `(3,4)→(7,8)` lands on
the nearer of the two stored points. -/
theorem import_nearest_mode_behavior_witness :
    nearestAssign storeTwo ⟨some 1, none, some 2, some 3⟩ = storeTwo ∧
    import_control_csv storeTwo true true [⟨some 1, none, some 2, some 3⟩]
      = .ok storeTwo ∧
    (∃ (i : Nat) (cp : ControlPoint),
      storeTwo[i]? = some cp ∧
      (∀ (j : Nat) (cp' : ControlPoint), storeTwo[j]? = some cp' →
        sqDist cp 3 4 ≤ sqDist cp' 3 4) ∧
      nearestAssign storeTwo ⟨some 3, some 4, some 7, some 8⟩
        = storeTwo.set i { cp with x := some 7, y := some 8 }) := by
  refine ⟨?_, ?_, ?_⟩
  · exact import_nearest_mode_behavior.1 storeTwo _ (Or.inr (Or.inl rfl))
  · have h := import_nearest_mode_behavior.2.2 storeTwo [⟨some 1, none, some 2, some 3⟩]
      (by simp [storeTwo]) (by simp)
    rw [h]
    simp [nearestAssign]
  · exact import_nearest_mode_behavior.2.1 storeTwo 3 4 7 8 (by simp [storeTwo])

/-- C7: while a ring is being accumulated (`drawing` armed), finishing
it with 1 or 2 accumulated vertices fails with the too-few-vertices
warning and commits nothing — the state comes back exactly as it was;
with 3 or more vertices the failure never occurs, and committing a
single-ring polygon materializes world vertices by mapping every pixel
vertex of the (closed) ring through the forward affine transform. -/
theorem finish_polygon_ring_rules :
    (∀ (s : AppState) (nameAns : Option String) (wm : Bool),
      s.drawing = true →
      (s.current_poly_pixels.length = 1 ∨ s.current_poly_pixels.length = 2) →
      finish_polygon s nameAns wm = (s, .tooFewVertices)) ∧
    (∀ (s : AppState) (nameAns : Option String) (wm : Bool),
      s.drawing = true → 3 ≤ s.current_poly_pixels.length →
      (finish_polygon s nameAns wm).2 ≠ .tooFewVertices) ∧
    (∀ (s : AppState) (t : AffineT) (nameAns : Option String),
      s.drawing = true → 3 ≤ s.current_poly_pixels.length →
      s.transform = some t → s.current_group_pixels = [] →
      (finish_polygon s nameAns false).2 = .committed ∧
      ∃ poly, (finish_polygon s nameAns false).1.polygons = s.polygons ++ [poly] ∧
        poly.pixel_points = .single (closeRingPx s.current_poly_pixels) ∧
        poly.world_points = .single ((closeRingPx s.current_poly_pixels).map
          (fun p => some (pixel_to_world t p.1 p.2)))) := by
  refine ⟨?_, ?_, ?_⟩
  · intro s nameAns wm hd hlen
    have hne : s.current_poly_pixels ≠ [] := by
      intro h; rcases hlen with h1 | h1 <;> simp [h] at h1
    have hlt : s.current_poly_pixels.length < 3 := by
      rcases hlen with h1 | h1 <;> simp [h1]
    simp [finish_polygon, hd, List.isEmpty_iff, hne, hlt]
  · intro s nameAns wm hd hlen
    have hne : s.current_poly_pixels ≠ [] := by
      intro h; simp [h] at hlen
    have hlt : ¬ s.current_poly_pixels.length < 3 := not_lt.mpr hlen
    cases wm <;>
      simp [finish_polygon, hd, List.isEmpty_iff, hne, hlt]
  · intro s t nameAns hd hlen ht hgrp
    have hne : s.current_poly_pixels ≠ [] := by
      intro h; simp [h] at hlen
    have hlt : ¬ s.current_poly_pixels.length < 3 := not_lt.mpr hlen
    simp [finish_polygon, hd, List.isEmpty_iff, hne, hlt, hgrp, ht, pixel_to_world_app]

/-- Witness for C7: a 2-vertex ring under the example transform is
rejected leaving the session untouched; the triangle
`(0,0),(4,0),(4,3)` is committed, its closing vertex appended and every
pixel vertex forward-mapped. -/
theorem finish_polygon_ring_rules_witness :
    finish_polygon (drawState [(0, 0), (4, 0)]) none false
      = (drawState [(0, 0), (4, 0)], .tooFewVertices) ∧
    (finish_polygon (drawState [(0, 0), (4, 0), (4, 3)]) none false).2 = .committed ∧
    ∃ poly,
      (finish_polygon (drawState [(0, 0), (4, 0), (4, 3)]) none false).1.polygons = [poly] ∧
      poly.world_points
        = .single [some (100, 200), some (104, 200), some (104, 197), some (100, 200)] := by
  refine ⟨?_, ?_, ?_⟩
  · exact finish_polygon_ring_rules.1 _ none false rfl (Or.inr (by simp [drawState]))
  · exact (finish_polygon_ring_rules.2.2 (drawState [(0, 0), (4, 0), (4, 3)])
      ⟨1, 0, 100, 0, -1, 200⟩ none rfl (by simp [drawState]) rfl rfl).1
  · obtain ⟨_, poly, hpolys, hpix, hworld⟩ :=
      finish_polygon_ring_rules.2.2 (drawState [(0, 0), (4, 0), (4, 3)])
        ⟨1, 0, 100, 0, -1, 200⟩ none rfl (by simp [drawState]) rfl rfl
    refine ⟨poly, by simpa [drawState] using hpolys, ?_⟩
    rw [hworld]
    norm_num [drawState, closeRingPx, pixel_to_world, Prod.ext_iff]

/-- C8: over every sequence of session operations (point placement,
coordinate assignment, fitting, digitizing, commits and delete-last),
the ids assigned to committed polygons form, in commit order, exactly
the initial segment `1, 2, ..., k` — so they start at 1, are strictly
monotonically increasing, each new id exceeds every id ever assigned
before it, and an id is never reused even after `delete_last_polygon`
(which pops the polygon but never decrements `next_poly_id`). -/
theorem polygon_ids_strictly_increasing (ops : List Op) :
    (runLog ops).2 = List.range' 1 (runLog ops).2.length ∧
    (runLog ops).2.Pairwise (· < ·) := by
  have main : ∀ (l : List Op) (p : AppState × List Nat),
      p.1.next_poly_id = p.2.length + 1 → p.2 = List.range' 1 p.2.length →
      (l.foldl stepLog p).1.next_poly_id = (l.foldl stepLog p).2.length + 1 ∧
      (l.foldl stepLog p).2 = List.range' 1 (l.foldl stepLog p).2.length := by
    intro l
    induction l with
    | nil => intro p h1 h2; exact ⟨h1, h2⟩
    | cons op rest ih =>
      intro p h1 h2
      obtain ⟨g1, g2⟩ := stepLog_inv p op h1 h2
      simpa using ih (stepLog p op) g1 g2
  have h := main ops (initState, []) (by simp [initState]) (by simp)
  have h2 : (runLog ops).2 = List.range' 1 (runLog ops).2.length := h.2
  refine ⟨h2, ?_⟩
  rw [h2]
  exact List.pairwise_lt_range' 1 _

/-- C9 (counterexample): the vertex-table export does not write the
claimed 6-field header `poly_id,name,ring_index,vertex_index,x,y` — the
header written at georefimg.py line 941 is the 5-field
`poly_id,name,vertex_index,x,y` (no `ring_index` column), and a
successful concrete export produces rows of 5 fields, never 6. -/
theorem vertex_table_header_counterexample :
    csv_header ≠ ["poly_id", "name", "ring_index", "vertex_index", "x", "y"] ∧
    csv_header.length ≠ 6 ∧
    export_polygons true samplePolys = .ok (csv_header, vertexRows samplePolys) ∧
    (vertexRows samplePolys).map List.length = [5, 5, 5] := by
  refine ⟨by decide, by decide, by simp [export_polygons, samplePolys], ?_⟩
  simp [samplePolys, vertexRows, polyRows, singleRows, xyCells]

/-- C9 (amended): the vertex-table export writes the 5-field header
`poly_id,name,vertex_index,x,y` and exactly one row per vertex with
those five fields, ordered by polygon commit order, then ring (part)
order, then vertex order within each ring; a single-ring polygon's row
carries the numeric vertex index (no separate ring column), and a
multi-ring group's row encodes ring and vertex as the label
`part{r}_v{v}`. -/
theorem vertex_table_five_field_format :
    (csv_header = ["poly_id", "name", "vertex_index", "x", "y"] ∧ csv_header.length = 5) ∧
    (∀ ps : List DigitizedPolygon, (vertexRows ps).length = (ps.map vertexCount).sum) ∧
    (∀ ps qs : List DigitizedPolygon,
      vertexRows (ps ++ qs) = vertexRows ps ++ vertexRows qs) ∧
    (∀ ps : List DigitizedPolygon, ∀ row ∈ vertexRows ps, row.length = 5) ∧
    (∀ (pid j : Nat) (nm : String) (pts : List WPoint) (w : WPoint), pts[j]? = some w →
      (singleRows pid nm 0 pts)[j]? = some ([.nat pid, .txt nm, .nat j] ++ xyCells w)) ∧
    (∀ (pid pi j : Nat) (nm : String) (part : List WPoint) (w : WPoint), part[j]? = some w →
      (partRows pid nm pi 0 part)[j]?
        = some ([.nat pid, .txt nm, .txt (partLabel pi j)] ++ xyCells w)) := by
  refine ⟨⟨rfl, rfl⟩, vertexRows_length, vertexRows_append, rows_five_cells, ?_, ?_⟩
  · intro pid j nm pts w h
    simpa using singleRows_getElem pid nm 0 j pts w h
  · intro pid pi j nm part w h
    simpa using partRows_getElem pid nm pi 0 j part w h

/-- Witness for C9 (amended): the concrete triangle polygon exports 3
rows, the first and last laid out as `[1, "a", index, x, y]`. -/
theorem vertex_table_five_field_format_witness :
    (vertexRows samplePolys).length = 3 ∧
    (vertexRows samplePolys)[0]?
      = some [.nat 1, .txt "a", .nat 0, .rat 0, .rat 0] ∧
    (vertexRows samplePolys)[2]?
      = some [.nat 1, .txt "a", .nat 2, .rat 1, .rat 1] := by
  refine ⟨?_, ?_, ?_⟩
  · rw [vertex_table_five_field_format.2.1 samplePolys]; decide
  · have h := vertex_table_five_field_format.2.2.2.2.1 1 0 "a"
      [some (0, 0), some (1, 0), some (1, 1)] (some (0, 0)) (by decide)
    simpa [samplePolys, vertexRows, polyRows, xyCells] using h
  · have h := vertex_table_five_field_format.2.2.2.2.1 1 2 "a"
      [some (0, 0), some (1, 0), some (1, 1)] (some (1, 1)) (by decide)
    simpa [samplePolys, vertexRows, polyRows, xyCells] using h

/-- C10 (counterexample): the singular-transform failure of
`world_to_pixel` is NOT distinguishable by the caller from the
absent-transform case — both return the same NaN sentinel pair (`none`
in the embedding): at the singular transform `(1,2,0,2,4,0)` and the
world point `(5,7)` the two results are equal. -/
theorem singular_vs_absent_counterexample :
    world_to_pixel_app (some ⟨1, 2, 0, 2, 4, 0⟩) 5 7 = none ∧
    world_to_pixel_app none 5 7 = none ∧
    world_to_pixel_app (some ⟨1, 2, 0, 2, 4, 0⟩) 5 7 = world_to_pixel_app none 5 7 := by
  refine ⟨?_, rfl, ?_⟩ <;> norm_num [world_to_pixel_app, world_to_pixel]

/-- C10 (amended): when the 2x2 linear part `[[A,B],[D,E]]` of the
transform is non-invertible, the inverse transform fails returning the
NaN sentinel pair — the very same value the operation returns when the
transform is absent, so the two failures are not distinct to callers. -/
theorem world_to_pixel_failure_modes :
    (∀ (t : AffineT) (x y : ℚ), t.A * t.E - t.B * t.D = 0 →
      world_to_pixel_app (some t) x y = none) ∧
    (∀ x y : ℚ, world_to_pixel_app none x y = none) := by
  constructor
  · intro t x y h
    simp [world_to_pixel_app, world_to_pixel, h]
  · intro x y
    rfl

/-- Witness for C10 (amended): the singular transform `(1,2,0,2,4,0)`
(determinant 0) and the absent transform both yield the sentinel. -/
theorem world_to_pixel_failure_modes_witness :
    ((1 : ℚ) * 4 - 2 * 2 = 0) ∧
    world_to_pixel_app (some ⟨1, 2, 0, 2, 4, 0⟩) 5 7 = none ∧
    world_to_pixel_app none 5 7 = none :=
  ⟨by norm_num,
   world_to_pixel_failure_modes.1 ⟨1, 2, 0, 2, 4, 0⟩ 5 7 (by norm_num),
   world_to_pixel_failure_modes.2 5 7⟩

end GeoRefImg
